import Mathlib

set_option maxRecDepth 1000000
set_option maxHeartbeats 1000000

/-!
Verification of the 3DS chunk decoder (src/code/3DSLoader.cpp).

The development is a shallow embedding of the translation unit.  Machine
integers are modelled as Nat or Int with explicit wrap where the source
relies on unsigned wraparound; IEEE-754 binary32 values are modelled
exactly by a canonical triple (sign, significand, quantum exponent) with
round-to-nearest-even, so every float computation of the loader is
reproduced bit for bit; the transcendental powf is kept abstract as a
function parameter.  Buffers are arrays of bytes; a read outside the
buffer yields 0 (the loader performs no bounds check on payload reads,
and no statement below depends on the value of such a read).

Build configuration embedded: the debug build (_DEBUG defined, so the
ASSIMP_3DS_VALIDATE_CHUNK_SIZE macro is active); the keyframe-animation
cases guarded by AI_3DS_KEYFRAME_ANIMATION are modelled separately
(parseScaleTrack below) since that block does not take part in the
cursor arithmetic of a default build.

Declarations missing from the translation unit (the Chunk layout and
numeric tag values from 3DSHelper.h, ASSIMP_stricmp from
StringComparison.h) are modelled from the spec where noted.
-/

deriving instance DecidableEq for Except

namespace ThreeDS

/-! ## Exact binary32 arithmetic -/

/-- Fueled floor-of-log2 worker; the fuel only needs to exceed the
number of halvings. -/
def lgGo : Nat → Nat → Nat
  | 0, _ => 0
  | f + 1, n => if n ≤ 1 then 0 else lgGo f (n / 2) + 1

/-- Floor of log2 of a positive natural number (0 for 0). -/
def lg (n : Nat) : Nat := lgGo n n

/-- Decides den * 2 ^ g ≤ num for an integer exponent g. -/
def le2exp (g : Int) (den num : Nat) : Bool :=
  if 0 ≤ g then decide (den * 2 ^ g.toNat ≤ num) else decide (den ≤ num * 2 ^ (-g).toNat)

/-- Floor of log2 of the fraction a / b, for a, b ≥ 1. -/
def ilog2q (a b : Nat) : Int :=
  let g : Int := (lg a : Int) - (lg b : Int)
  if le2exp g b a then g else g - 1

/-- Round-half-to-even of the fraction num / den, for den ≥ 1. -/
def rne (num den : Nat) : Nat :=
  let q := num / den
  let r := num % den
  if 2 * r < den then q
  else if den < 2 * r then q + 1
  else if q % 2 = 0 then q else q + 1

/-- An IEEE-754 binary32 value.  A finite value is the canonical triple
of sign, significand n and quantum exponent qe, denoting (-1)^sign *
n * 2^qe; the rounding function below only produces canonical triples
(qe = -149 with n < 2^23, or 2^23 ≤ n < 2^24), so structural equality
coincides with value equality.  The two zeros are identified: no
predicate applied by the loader distinguishes them. -/
inductive F32 where
  | nan : F32
  | inf : Bool → F32
  | fin : Bool → Nat → Int → F32
deriving DecidableEq

/-- The (canonical) binary32 zero. -/
def f32zero : F32 := .fin false 0 (-149)

/-- Round the positive fraction a / b (a, b ≥ 1) to binary32 with
round-to-nearest, ties to even, overflowing to infinity. -/
def roundFrac (neg : Bool) (a b : Nat) : F32 :=
  let e := ilog2q a b
  let qe : Int := max (e - 23) (-149)
  let n := if 0 ≤ qe then rne a (b * 2 ^ qe.toNat) else rne (a * 2 ^ (-qe).toNat) b
  let n2 := if n = 2 ^ 24 then 2 ^ 23 else n
  let qe2 := if n = 2 ^ 24 then qe + 1 else qe
  if 105 ≤ qe2 then .inf neg else .fin neg n2 qe2

/-- The binary32 value nearest to the rational num / den (NaN for den = 0). -/
def F32.ofFrac (num : Int) (den : Nat) : F32 :=
  if den = 0 then .nan
  else if num = 0 then f32zero
  else roundFrac (decide (num < 0)) num.natAbs den

/-- The binary32 value of a small integer (exact for magnitudes below 2^24). -/
def F32.ofInt (num : Int) : F32 := F32.ofFrac num 1

/-- binary32 multiplication: exact product, then one rounding. -/
def F32.mul : F32 → F32 → F32
  | .nan, _ => .nan
  | _, .nan => .nan
  | .inf s, .inf t => .inf (s != t)
  | .inf s, .fin t n _ => if n = 0 then .nan else .inf (s != t)
  | .fin s n _, .inf t => if n = 0 then .nan else .inf (s != t)
  | .fin s1 n1 q1, .fin s2 n2 q2 =>
    if n1 = 0 ∨ n2 = 0 then f32zero
    else
      let q := q1 + q2
      roundFrac (s1 != s2) (n1 * n2 * 2 ^ q.toNat) (2 ^ (-q).toNat)

/-- binary32 division: exact quotient, then one rounding. -/
def F32.div : F32 → F32 → F32
  | .nan, _ => .nan
  | _, .nan => .nan
  | .inf _, .inf _ => .nan
  | .inf s, .fin t _ _ => .inf (s != t)
  | .fin _ _ _, .inf _ => f32zero
  | .fin s1 n1 q1, .fin s2 n2 q2 =>
    if n2 = 0 then (if n1 = 0 then .nan else .inf (s1 != s2))
    else if n1 = 0 then f32zero
    else
      let q := q1 - q2
      roundFrac (s1 != s2) (n1 * 2 ^ q.toNat) (n2 * 2 ^ (-q).toNat)

/-- binary32 subtraction: exact difference, then one rounding. -/
def F32.sub : F32 → F32 → F32
  | .nan, _ => .nan
  | _, .nan => .nan
  | .inf s, .inf t => if s = t then .nan else .inf s
  | .inf s, .fin _ _ _ => .inf s
  | .fin _ _ _, .inf t => .inf (!t)
  | .fin s1 n1 q1, .fin s2 n2 q2 =>
    let m := min q1 q2
    let va : Int := (if s1 then -(n1 : Int) else (n1 : Int)) * 2 ^ (q1 - m).toNat
    let vb : Int := (if s2 then -(n2 : Int) else (n2 : Int)) * 2 ^ (q2 - m).toNat
    let d := va - vb
    if d = 0 then f32zero
    else roundFrac (decide (d < 0)) (d.natAbs * 2 ^ m.toNat) (2 ^ (-m).toNat)

/-- The is_qnan predicate from qnan.h: true exactly on NaN. -/
def is_qnan : F32 → Bool
  | .nan => true
  | _ => false

/-! ## Byte buffer primitives -/

/-- One byte of the input buffer; positions outside the buffer read as 0.
The loader performs no bounds check on payload reads, and no statement
below depends on the value read out of bounds. -/
def getByte (buf : Array Nat) (i : Nat) : Nat := buf.getD i 0

/-- Little-endian 16-bit read, as the loader does on x86. -/
def readU16 (buf : Array Nat) (c : Nat) : Nat :=
  getByte buf c + 256 * getByte buf (c + 1)

/-- Little-endian 32-bit read. -/
def readU32 (buf : Array Nat) (c : Nat) : Nat :=
  readU16 buf c + 65536 * readU16 buf (c + 2)

/-- Little-endian signed 16-bit read (two's complement). -/
def readI16 (buf : Array Nat) (c : Nat) : Int :=
  let w := readU16 buf c
  if w < 32768 then (w : Int) else (w : Int) - 65536

/-- Little-endian binary32 read: sign bit, 8 exponent bits, 23 fraction
bits, with the usual normal / subnormal / infinity / NaN decoding. -/
def readF32 (buf : Array Nat) (c : Nat) : F32 :=
  let w := readU32 buf c
  let sgn := decide (2 ^ 31 ≤ w)
  let ex : Nat := w / 2 ^ 23 % 256
  let frac : Nat := w % 2 ^ 23
  if ex = 255 then (if frac = 0 then .inf sgn else .nan)
  else if ex = 0 then .fin sgn frac (-149)
  else .fin sgn (2 ^ 23 + frac) ((ex : Int) - 150)

/-! ## Chunk header reading (Dot3DSImporter::ReadChunk, lines 218-238)

Modelled from the spec: the Chunk record itself lives in 3DSHelper.h,
which is not part of this translation unit; per the spec a header is a
16-bit tag followed by a 32-bit total size, 6 bytes in all. -/

/-- Size in bytes of a chunk header (packed 16-bit tag + 32-bit size). -/
def headerSize : Nat := 6

/-- Outcome of one ReadChunk call.  eof is the hard throw for a header
read at or past the buffer end (line 223); noChunk is the soft null
out-pointer when 1 to 5 bytes remain (line 227); overrun is the hard
throw when the declared size reaches past the buffer end (line 233);
ok carries the tag, the declared size and the cursor moved just past
the header. -/
inductive ReadRes where
  | eof : ReadRes
  | noChunk : ReadRes
  | overrun : ReadRes
  | ok : Nat → Nat → Nat → ReadRes
deriving DecidableEq

/-- Dot3DSImporter::ReadChunk: validate against the buffer end and
advance the cursor past the header only. -/
def readChunk (buf : Array Nat) (c : Nat) : ReadRes :=
  if buf.size ≤ c then .eof
  else if buf.size - c < headerSize then .noChunk
  else if buf.size < readU32 buf (c + 2) + c then .overrun
  else .ok (readU16 buf c) (readU32 buf (c + 2)) (c + headerSize)

/-- The condition of ReadChunk's hard end-of-file throw at a cursor
position: the cursor is at or past the buffer end (line 223). -/
def eofCond (buf : Array Nat) (c : Nat) : Prop := buf.size ≤ c

/-- The condition of ReadChunk's hard chunk-footer throw at a cursor
position: a whole header is available there but the declared size
reaches past the buffer end (line 233). -/
def overrunCond (buf : Array Nat) (c : Nat) : Prop :=
  c < buf.size ∧ headerSize ≤ buf.size - c ∧ buf.size < readU32 buf (c + 2) + c

/-- The condition of ReadChunk's soft null result at a cursor position:
at least one but fewer than header-size bytes remain (line 227). -/
def shortCond (buf : Array Nat) (c : Nat) : Prop :=
  c < buf.size ∧ buf.size - c < headerSize

/-! ## Chunk tags

Modelled from the spec: the numeric tag values live in 3DSHelper.h,
absent from this translation unit; the standard 3DS tag values are
used.  Only distinctness of tags matters in the statements below. -/

def CHUNK_MAIN : Nat := 0x4D4D
def CHUNK_OBJMESH : Nat := 0x3D3D
def CHUNK_VERSION : Nat := 0x0002
def CHUNK_KEYFRAMER : Nat := 0xB000
def CHUNK_OBJBLOCK : Nat := 0x4000
def CHUNK_TRIMESH : Nat := 0x4100
def CHUNK_VERTLIST : Nat := 0x4110
def CHUNK_FACELIST : Nat := 0x4120
def CHUNK_FACEMAT : Nat := 0x4130
def CHUNK_MAPLIST : Nat := 0x4140
def CHUNK_SMOOLIST : Nat := 0x4150
def CHUNK_TRMATRIX : Nat := 0x4160
def CHUNK_MAT_MATERIAL : Nat := 0xAFFF
def CHUNK_AMBCOLOR : Nat := 0x2100
def CHUNK_BIT_MAP : Nat := 0x1100
def CHUNK_BIT_MAP_EXISTS : Nat := 0x1101
def CHUNK_MASTER_SCALE : Nat := 0x0100
def CHUNK_TRACKINFO : Nat := 0xB002
def CHUNK_TRACKOBJNAME : Nat := 0xB010
def CHUNK_TRACKPIVOT : Nat := 0xB013
def CHUNK_MAT_MATNAME : Nat := 0xA000
def CHUNK_MAT_AMBIENT : Nat := 0xA010
def CHUNK_MAT_DIFFUSE : Nat := 0xA020
def CHUNK_MAT_SPECULAR : Nat := 0xA030
def CHUNK_MAT_SHININESS : Nat := 0xA040
def CHUNK_MAT_SHININESS_PERCENT : Nat := 0xA041
def CHUNK_MAT_TRANSPARENCY : Nat := 0xA050
def CHUNK_MAT_SELF_ILLUM : Nat := 0xA080
def CHUNK_MAT_TWO_SIDE : Nat := 0xA081
def CHUNK_MAT_SELF_ILPCT : Nat := 0xA084
def CHUNK_MAT_SHADING : Nat := 0xA100
def CHUNK_MAT_TEXTURE : Nat := 0xA200
def CHUNK_MAT_SPECMAP : Nat := 0xA204
def CHUNK_MAT_OPACMAP : Nat := 0xA210
def CHUNK_MAT_BUMPMAP : Nat := 0xA230
def CHUNK_MAT_SHINMAP : Nat := 0xA33C
def CHUNK_MAT_SELFIMAP : Nat := 0xA33D
def CHUNK_MAPFILE : Nat := 0xA300
def CHUNK_PERCENTW : Nat := 0x0030
def CHUNK_PERCENTF : Nat := 0x0031
def CHUNK_RGBF : Nat := 0x0010
def CHUNK_RGBB : Nat := 0x0011
def CHUNK_LINRGBB : Nat := 0x0012
def CHUNK_LINRGBF : Nat := 0x0013

/-! ## Zero-terminated string scans -/

/-- Worker for the bounded asciiz scan used for mesh, material and node
names and the texture map file name (lines 316-320, 861-869, 453-457,
674-678, 1000-1004): read a byte, advance, stop on a zero byte or once
the advanced position passes E - 1 where E is the chunk end.  Returns
the counted length, the final scan pointer (one past the last byte
read) and the list of positions read, in order. -/
def scanGo (buf : Array Nat) (E : Nat) : Nat → Nat → Nat × Nat × List Nat
  | 0, s => (0, s, [])
  | fuel + 1, s =>
    if getByte buf s = 0 then (0, s + 1, [s])
    else if E ≤ s + 1 then (0, s + 1, [s])
    else
      let r := scanGo buf E fuel (s + 1)
      (r.1 + 1, r.2.1, s :: r.2.2)

/-- The bounded asciiz scan from payload start s to chunk end E. -/
def scanName (buf : Array Nat) (s E : Nat) : Nat × Nat × List Nat :=
  scanGo buf E (E - s + 1) s

/-- Worker for the unbounded C-string read used for the background image
name (line 350, a std::string constructed from a raw char pointer):
read bytes until a zero byte, with no chunk bound at all.  Returns the
string bytes, the positions read and whether the scan ran off the whole
buffer (in the source this keeps reading adjacent memory). -/
def strGo (buf : Array Nat) : Nat → Nat → List Nat × List Nat × Bool
  | 0, _ => ([], [], true)
  | fuel + 1, s =>
    if buf.size ≤ s then ([], [], true)
    else if getByte buf s = 0 then ([], [s], false)
    else
      let r := strGo buf fuel (s + 1)
      (getByte buf s :: r.1, s :: r.2.1, r.2.2)

/-- The unbounded C-string read starting at position s. -/
def bitmapScan (buf : Array Nat) (s : Nat) : List Nat × List Nat × Bool :=
  strGo buf (buf.size + 1 - s) s

/-! ## Percentage and color sub-chunk parsing -/

/-- Errors with which a parse aborts, each carrying the cursor position
at which it arose.  eofHeader and overrun are the two hard
ImportErrorException throws of ReadChunk; nullDeref records that a
dispatcher macro dereferenced the null chunk pointer ReadChunk returns
when 1 to 5 bytes remain (the source has no null check there);
outOfFuel is an artifact of the fueled model only. -/
inductive PErr where
  | eofHeader : Nat → PErr
  | overrun : Nat → PErr
  | nullDeref : Nat → PErr
  | outOfFuel : PErr
deriving DecidableEq

/-- Soundness predicate for parse results: an error is only ever
reported with a cursor position at which its operational condition
really holds.  (Stated as implications rather than by matching on the
result, so the property never forces evaluation of the result.) -/
def errSound {α : Type} (buf : Array Nat) (r : Except PErr α) : Prop :=
  (∀ c2, r = .error (.eofHeader c2) → eofCond buf c2)
  ∧ (∀ c2, r = .error (.overrun c2) → overrunCond buf c2)
  ∧ (∀ c2, r = .error (.nullDeref c2) → shortCond buf c2)

/-- The unsigned 32-bit value of size - 6.  This models the variable
"const unsigned int diff" of ParseColorChunk (line 1107): there the
size_t-wide difference is truncated to 32 bits before being added to
the cursor, so a declared size below 6 yields an offset just under
2^32.  (ParsePercentageChunk at line 1086 adds the size_t-wide
difference directly to the pointer instead; see below.) -/
def subHdr32 (size : Nat) : Nat := (size + (2 ^ 32 - headerSize)) % 2 ^ 32

/-- Dot3DSImporter::ParsePercentageChunk (lines 1068-1088).  Returns the
decoded value (NaN on failure) and the cursor position it leaves; the
accepted branches do not advance the cursor past the payload.  The
unknown-tag branch adds Size - sizeof(Chunk) to the pointer in
size_t-wide arithmetic, which nets to chunk start + Size even for
declared sizes below 6 (the wrap of the difference and the wrap of the
pointer addition cancel). -/
def parsePercentageChunk (buf : Array Nat) (c : Nat) : Except PErr (F32 × Nat) :=
  match readChunk buf c with
  | .eof => .error (.eofHeader c)
  | .overrun => .error (.overrun c)
  | .noChunk => .ok (.nan, c)
  | .ok flag size c1 =>
    if flag = CHUNK_PERCENTF then
      if size < 4 then .ok (.nan, c1) else .ok (readF32 buf c1, c1)
    else if flag = CHUNK_PERCENTW then
      if size < 2 then .ok (.nan, c1)
      else .ok (F32.div (F32.ofInt (readI16 buf c1)) (F32.ofInt 65535), c1)
    else .ok (.nan, c + size)

/-- A decoded color triple. -/
structure ColorF where
  r : F32
  g : F32
  b : F32
deriving DecidableEq

/-- The static error color of ParseColorChunk (lines 1096-1098). -/
def clrError : ColorF := ⟨.nan, .nan, .nan⟩

/-- The compile-time float constant 1.0f / 2.2f used for the gamma
variants (lines 1169-1171): 2.2 rounded to binary32, then a binary32
division. -/
def gammaExp : F32 := F32.div (F32.ofInt 1) (F32.ofFrac 11 5)

/-- Apply the gamma exponent to each channel via the abstract powf. -/
def gammaColor (pw : F32 → F32 → F32) (col : ColorF) : ColorF :=
  ⟨pw col.r gammaExp, pw col.g gammaExp, pw col.b gammaExp⟩

/-- Dot3DSImporter::ParseColorChunk (lines 1090-1174), with powf kept
abstract as pw.  The cursor is advanced by the declared payload size in
unsigned arithmetic before the dispatch on the tag; unknown tags make
the function scan the following chunk (the tail call at line 1165),
bounded here by fuel. -/
def parseColorChunk (pw : F32 → F32 → F32) (acceptPercent : Bool) :
    Nat → Array Nat → Nat → Except PErr (ColorF × Nat)
  | 0, _, _ => .error .outOfFuel
  | fuel + 1, buf, c =>
    match readChunk buf c with
    | .eof => .error (.eofHeader c)
    | .overrun => .error (.overrun c)
    | .noChunk => .ok (clrError, c)
    | .ok flag size c1 =>
      let diff := subHdr32 size
      let c2 := c1 + diff
      if flag = CHUNK_LINRGBF ∨ flag = CHUNK_RGBF then
        if diff < 12 then .ok (clrError, c2)
        else
          let col : ColorF := ⟨readF32 buf c1, readF32 buf (c1 + 4), readF32 buf (c1 + 8)⟩
          .ok (if flag = CHUNK_LINRGBF then gammaColor pw col else col, c2)
      else if flag = CHUNK_LINRGBB ∨ flag = CHUNK_RGBB then
        if diff < 3 then .ok (clrError, c2)
        else
          let col : ColorF := ⟨F32.div (F32.ofInt (getByte buf c1)) (F32.ofInt 255),
            F32.div (F32.ofInt (getByte buf (c1 + 1))) (F32.ofInt 255),
            F32.div (F32.ofInt (getByte buf (c1 + 2))) (F32.ofInt 255)⟩
          .ok (if flag = CHUNK_LINRGBB then gammaColor pw col else col, c2)
      else if flag = CHUNK_PERCENTF then
        if acceptPercent && decide (4 ≤ diff) then
          let v := readF32 buf c1
          .ok (⟨v, v, v⟩, c2)
        else .ok (clrError, c2)
      else if flag = CHUNK_PERCENTW then
        if acceptPercent && decide (1 ≤ diff) then
          let v := F32.div (F32.ofInt (getByte buf c1)) (F32.ofInt 255)
          .ok (⟨v, v, v⟩, c2)
        else .ok (clrError, c2)
      else parseColorChunk pw acceptPercent fuel buf c2

/-! ## Percentage conversions applied by ParseMaterialChunk (913-953) -/

/-- The float constant (float)0xFFFF. -/
def fc65535 : F32 := F32.ofInt 65535

/-- The float constant 100.0f. -/
def fc100 : F32 := F32.ofInt 100

/-- The float constant 1.0f. -/
def fc1 : F32 := F32.ofInt 1

/-- CHUNK_MAT_TRANSPARENCY caller conversion (lines 913-918):
1.0f - v * (float)0xFFFF / 100.0f, left to right, with fallback 1.0f
when the percentage read failed. -/
def convTransparency (v : F32) : F32 :=
  if is_qnan v then fc1 else F32.sub fc1 (F32.div (F32.mul v fc65535) fc100)

/-- CHUNK_MAT_SHININESS caller conversion (lines 933-937):
v * (float)0xFFFF with fallback 0.0f. -/
def convShininess (v : F32) : F32 :=
  if is_qnan v then f32zero else F32.mul v fc65535

/-- CHUNK_MAT_SHININESS_PERCENT caller conversion (lines 940-944): the
compound assignment multiplies v by the constant (float)0xffff / 100.0f,
i.e. the constant is rounded first; fallback 0.0f. -/
def convShininessStrength (v : F32) : F32 :=
  if is_qnan v then f32zero else F32.mul v (F32.div fc65535 fc100)

/-- CHUNK_MAT_SELF_ILPCT caller conversion (lines 947-952):
v * (float)0xFFFF / 100.0f evaluated left to right; fallback 0.0f. -/
def convSelfIlum (v : F32) : F32 :=
  if is_qnan v then f32zero else F32.div (F32.mul v fc65535) fc100

/-- The single conversion formula the spec gives for both
shininess-strength and self-illumination, value * 65535 / 100, read
left to right in binary32.  This definition follows the spec wording,
for comparison against the two source conversions above. -/
def specStrengthFormula (v : F32) : F32 := F32.div (F32.mul v fc65535) fc100

/-! ## The dispatcher step (debug build)

The common shape of the eight Parse*Chunk loops: ASSIMP_3DS_BEGIN_CHUNK
reads a header and computes the child end; after the tag handler runs,
ASSIMP_3DS_VALIDATE_CHUNK_SIZE warns and moves the child end forward to
the cursor if the handler overshot it; ASSIMP_3DS_END_CHUNK sets the
cursor to the (possibly moved) child end, subtracts the declared child
size from the container budget and stops when the budget is spent.
Here the tag handler is abstracted as a function from tag, declared
size and payload start to the cursor it leaves. -/

/-- Result of a single dispatcher iteration: a hard ReadChunk throw, a
dereference of the null header pointer (ReadChunk with 1 to 5 bytes
remaining; BEGIN_CHUNK has no null check), or the next cursor and
budget together with whether the overflow warning fired and whether
the budget is now spent. -/
inductive StepRes where
  | fatal : StepRes
  | nullref : StepRes
  | next : Nat → Int → Bool → Bool → StepRes
deriving DecidableEq

/-- One iteration of a dispatcher loop with abstract handler h. -/
def dispatchStep (buf : Array Nat) (h : Nat → Nat → Nat → Nat) (c : Nat) (rem : Int) :
    StepRes :=
  match readChunk buf c with
  | .eof => .fatal
  | .overrun => .fatal
  | .noChunk => .nullref
  | .ok flag size c1 =>
    let hc := h flag size c1
    let childEnd := c + size
    .next (max childEnd hc) (rem - (size : Int)) (decide (childEnd < hc))
      (decide (rem - (size : Int) ≤ 0))

/-- Result of running a dispatcher loop to completion. -/
inductive LoopRes where
  | fatal : LoopRes
  | nullref : LoopRes
  | outOfFuel : LoopRes
  | done : Nat → Bool → LoopRes
deriving DecidableEq

/-- A dispatcher loop: iterate dispatchStep until the budget is spent or
a read fails; the Bool accumulates whether any overflow warning fired. -/
def dispatchLoop (buf : Array Nat) (h : Nat → Nat → Nat → Nat) :
    Nat → Nat → Int → Bool → LoopRes
  | 0, _, _, _ => .outOfFuel
  | fuel + 1, c, rem, w =>
    match dispatchStep buf h c rem with
    | .fatal => .fatal
    | .nullref => .nullref
    | .next c9 _ w9 true => .done c9 (w || w9)
    | .next c9 rem9 w9 false => dispatchLoop buf h fuel c9 rem9 (w || w9)

/-! ## The full recursive-descent parse (cursor, budgets and errors)

The eight chained dispatcher loops of the source with their concrete
handlers, embedded as one fueled function over the parse mode.  The
state threaded besides the cursor is the face count of the mesh being
decoded, the only scene datum the cursor arithmetic depends on
(CHUNK_SMOOLIST consumes 4 bytes per known face); payload decoding
itself is modelled by the dedicated functions of this file
(parseColorChunk, parsePercentageChunk, scanName, bitmapScan, hAdd,
parseScaleTrack, facematLookup, facematApply). -/

/-- Which dispatcher loop is running: ParseMainChunk, ParseEditorChunk,
ParseObjectChunk, ParseChunk, ParseKeyframeChunk, ParseHierarchyChunk,
ParseMeshChunk, ParseFaceChunk, ParseMaterialChunk, ParseTextureChunk. -/
inductive PMode where
  | main : PMode
  | editor : PMode
  | object : PMode
  | objchild : PMode
  | keyframe : PMode
  | hierarchy : PMode
  | mesh : PMode
  | face : PMode
  | material : PMode
  | texture : PMode
deriving DecidableEq

/-- Propagate a sub-parse result into a dispatcher handler result: a
C++ exception propagates unchanged; a normal return keeps the face
count and adopts the cursor the sub-parse left. -/
def liftRes {α : Type} (fc : Nat) (x : Except PErr (α × Nat)) : Except PErr (Nat × Nat) :=
  match x with
  | .error e => .error e
  | .ok r => .ok (fc, r.2)

/-- The loop tail shared by every dispatcher iteration
(ASSIMP_3DS_VALIDATE_CHUNK_SIZE plus ASSIMP_3DS_END_CHUNK, debug
build): propagate a handler error; otherwise set the cursor to the
maximum of the declared child end and the cursor the handler left,
spend the declared size from the budget, and either stop or continue
through k. -/
def stepEnd (c size : Nat) (rem : Int) (hres : Except PErr (Nat × Nat))
    (k : Nat → Nat → Int → Except PErr (Nat × Nat)) : Except PErr (Nat × Nat) :=
  match hres with
  | .error e => .error e
  | .ok r =>
    if rem - (size : Int) ≤ 0 then .ok (r.1, max (c + size) r.2)
    else k r.1 (max (c + size) r.2) (rem - (size : Int))

/-- The tag handlers of the eight dispatcher loops, given the header
already read (flag, declared size, chunk start c, payload start c1).
rec runs a nested dispatcher loop (ParseEditorChunk and so on down the
taxonomy) and colf a color sub-parse; both are instantiated with the
fueled parseP and parseColorChunk below.  Faithfulness notes: the
CHUNK_VERTLIST count at line 746 is a short assigned into the uint16_t
iNum of line 740, so the loop runs the raw 16-bit count of iterations
and the cursor advances 2 + 12 * count bytes; CHUNK_OBJBLOCK and
CHUNK_FACEMAT consume the scanned name before their nested parse;
CHUNK_SMOOLIST consumes 4 bytes per already-decoded face. -/
def parseHandle
    (rec : PMode → Array Nat → Nat → Nat → Int → Except PErr (Nat × Nat))
    (colf : Bool → Array Nat → Nat → Except PErr (ColorF × Nat))
    (m : PMode) (buf : Array Nat) (fc flag size c c1 : Nat) :
    Except PErr (Nat × Nat) :=
  match m with
  | .main =>
    if flag = CHUNK_MAIN then rec .editor buf fc c1 ((size : Int) - 6)
    else .ok (fc, c1)
  | .editor =>
    if flag = CHUNK_OBJMESH then rec .object buf fc c1 ((size : Int) - 6)
    else if flag = CHUNK_KEYFRAMER then rec .keyframe buf fc c1 ((size : Int) - 6)
    else .ok (fc, c1)
  | .object =>
    if flag = CHUNK_OBJBLOCK then
      rec .objchild buf fc (c1 + ((scanName buf c1 (c + size)).1 + 1))
        ((size : Int) - 6 - (((scanName buf c1 (c + size)).1 : Int) + 1))
    else if flag = CHUNK_MAT_MATERIAL then rec .material buf fc c1 ((size : Int) - 6)
    else if flag = CHUNK_AMBCOLOR then liftRes fc (colf true buf c1)
    else if flag = CHUNK_MASTER_SCALE then .ok (fc, c1 + 4)
    else if flag = CHUNK_KEYFRAMER then rec .keyframe buf fc c1 ((size : Int) - 6)
    else .ok (fc, c1)
  | .objchild =>
    if flag = CHUNK_TRIMESH then rec .mesh buf fc c1 ((size : Int) - 6)
    else .ok (fc, c1)
  | .keyframe =>
    if flag = CHUNK_TRACKINFO then rec .hierarchy buf fc c1 ((size : Int) - 6)
    else .ok (fc, c1)
  | .hierarchy =>
    if flag = CHUNK_TRACKOBJNAME then
      .ok (fc, c1 + ((scanName buf c1 (c + size)).1 + 1) + 4)
    else if flag = CHUNK_TRACKPIVOT then .ok (fc, c1 + 12)
    else .ok (fc, c1)
  | .mesh =>
    if flag = CHUNK_VERTLIST then .ok (fc, c1 + 2 + 12 * readU16 buf c1)
    else if flag = CHUNK_TRMATRIX then .ok (fc, c1 + 48)
    else if flag = CHUNK_MAPLIST then .ok (fc, c1 + 2 + 8 * readU16 buf c1)
    else if flag = CHUNK_FACELIST then
      if 0 < ((c + size : Nat) : Int) - ((c1 + 2 + 8 * readU16 buf c1 : Nat) : Int) then
        rec .face buf (readU16 buf c1) (c1 + 2 + 8 * readU16 buf c1)
          (((c + size : Nat) : Int) - ((c1 + 2 + 8 * readU16 buf c1 : Nat) : Int))
      else .ok (readU16 buf c1, c1 + 2 + 8 * readU16 buf c1)
    else .ok (fc, c1)
  | .face =>
    if flag = CHUNK_SMOOLIST then .ok (fc, c1 + 4 * fc)
    else if flag = CHUNK_FACEMAT then
      .ok (fc, (scanName buf c1 (c + size)).2.1 + 2
        + 2 * readU16 buf ((scanName buf c1 (c + size)).2.1))
    else .ok (fc, c1)
  | .material =>
    if flag = CHUNK_MAT_DIFFUSE ∨ flag = CHUNK_MAT_SPECULAR
        ∨ flag = CHUNK_MAT_AMBIENT ∨ flag = CHUNK_MAT_SELF_ILLUM then
      liftRes fc (colf false buf c1)
    else if flag = CHUNK_MAT_TRANSPARENCY ∨ flag = CHUNK_MAT_SHININESS
        ∨ flag = CHUNK_MAT_SHININESS_PERCENT ∨ flag = CHUNK_MAT_SELF_ILPCT then
      liftRes fc (parsePercentageChunk buf c1)
    else if flag = CHUNK_MAT_SHADING then .ok (fc, c1 + 2)
    else if flag = CHUNK_MAT_TEXTURE ∨ flag = CHUNK_MAT_BUMPMAP
        ∨ flag = CHUNK_MAT_OPACMAP ∨ flag = CHUNK_MAT_SHINMAP
        ∨ flag = CHUNK_MAT_SPECMAP ∨ flag = CHUNK_MAT_SELFIMAP then
      rec .texture buf fc c1 ((size : Int) - 6)
    else .ok (fc, c1)
  | .texture => .ok (fc, c1)

/-- The recursive-descent parse.  Arguments: abstract powf, fuel, mode,
buffer, face count of the current mesh, cursor, remaining signed byte
budget of the container.  Returns the face count and the cursor after
the loop, or the error that aborted the parse, tagged with the cursor
position of the failing header read.  Matches the debug build: after
each handler the cursor becomes the maximum of the declared child end
and the cursor the handler left. -/
def parseP (pw : F32 → F32 → F32) :
    Nat → PMode → Array Nat → Nat → Nat → Int → Except PErr (Nat × Nat)
  | 0, _, _, _, _, _ => .error .outOfFuel
  | fuel + 1, m, buf, fc, c, rem =>
    match readChunk buf c with
    | .eof => .error (.eofHeader c)
    | .overrun => .error (.overrun c)
    | .noChunk => .error (.nullDeref c)
    | .ok flag size c1 =>
      stepEnd c size rem
        (parseHandle (fun m2 b2 fc2 c2 r2 => parseP pw fuel m2 b2 fc2 c2 r2)
          (fun ap b2 c2 => parseColorChunk pw ap fuel b2 c2)
          m buf fc flag size c c1)
        (fun fc2 c2 rem2 => parseP pw fuel m buf fc2 c2 rem2)


/-- Errors with which the whole import aborts: the too-small file check
of InternReadFile, the hard ReadChunk throws and the null dereference
of the dispatcher macros (each tagged with the cursor position of the
failing header read), or (model artifact) running out of fuel. -/
inductive DErr where
  | tooSmall : DErr
  | eofHeader : Nat → DErr
  | overrun : Nat → DErr
  | nullDeref : Nat → DErr
  | outOfFuel : DErr
deriving DecidableEq

/-- Inject a parse error into the import error type. -/
def liftPE : PErr → DErr
  | .eofHeader c => .eofHeader c
  | .overrun c => .overrun c
  | .nullDeref c => .nullDeref c
  | .outOfFuel => .outOfFuel

/-- Dot3DSImporter::InternReadFile (lines 135-203): reject a file
shorter than 16 bytes, then run ParseMainChunk over the whole buffer
with the file size as the initial budget.  On success the scene is
converted and handed to the caller (ok); every error aborts the import
before any scene reaches the caller, matching the C++ exception
propagating out of InternReadFile. -/
def decode (pw : F32 → F32 → F32) (fuel : Nat) (buf : Array Nat) : Except DErr Unit :=
  if buf.size < 16 then .error .tooSmall
  else
    match parseP pw fuel .main buf 0 0 ((buf.size : Nat) : Int) with
    | .error e => .error (liftPE e)
    | .ok _ => .ok ()

/-! ## Hierarchy reconstruction (InverseNodeSearch 423-437 and the
CHUNK_TRACKOBJNAME handler 450-487) -/

/-- A node of the arena-stored node tree: name, hierarchy level as read
(mHierarchyPos), creation index (mHierarchyIndex), parent index and
ordered children indices. -/
structure HNode where
  name : String
  hpos : Int
  hidx : Int
  parent : Option Nat
  children : List Nat
deriving DecidableEq

/-- The root node created by InternReadFile (lines 160-164): hierarchy
position and index -1, no parent. -/
def rootNode : HNode := ⟨"", -1, -1, none, []⟩

/-- The builder state: node arena (root at index 0), index of the last
touched node (mCurrentNode) and mLastNodeIndex. -/
structure HStt where
  nodes : Array HNode
  cur : Nat
  lastIdx : Int
deriving DecidableEq

/-- Initial builder state. -/
def hInit : HStt := ⟨#[rootNode], 0, -1⟩

/-- Node lookup (out-of-range defaults to the root record; never hit by
indices the builder produces). -/
def hGet (st : HStt) (i : Nat) : HNode := st.nodes.getD i rootNode

/-- Append a node under parent p, recording the parent back-reference
and appending the new index to the ordered children of p; returns the
new state and the new index. -/
def hPush (st : HStt) (p : Nat) (name : String) (pos : Int) : HStt × Nat :=
  let ni := st.nodes.size
  let pn := hGet st p
  let nodes := (st.nodes.push ⟨name, pos, st.lastIdx, some p, []⟩).setD p
    { pn with children := pn.children ++ [ni] }
  (⟨nodes, st.cur, st.lastIdx⟩, ni)

/-- Dot3DSImporter::InverseNodeSearch (lines 423-437): walk up the
parent chain from the current node; on a node whose level equals the
new node's level attach at its parent (or at the node itself if it has
none); on reaching null attach at the root.  Returns the index to
attach under. -/
def invSearch (st : HStt) : Nat → Option Nat → Int → Nat
  | 0, _, _ => 0
  | _ + 1, none, _ => 0
  | fuel + 1, some cIdx, pos =>
    let cn := hGet st cIdx
    if cn.hpos = pos then
      match cn.parent with
      | some p => p
      | none => cIdx
    else invSearch st fuel cn.parent pos

/-- Which of the three insertion branches the handler took. -/
inductive HBranch where
  | sibling : HBranch
  | deepen : HBranch
  | backtrack : HBranch
deriving DecidableEq

/-- The CHUNK_TRACKOBJNAME insertion (lines 458-486).  The raw 16-bit
level is incremented (wrapping as uint16).  Branch 1: the current node
has exactly this level: attach as a child of the current node's parent
(none means the source dereferences a null pointer: that is the none
result) and increment mLastNodeIndex.  Branch 2: the level is at least
mLastNodeIndex: attach under the current node and set mLastNodeIndex to
the level.  Branch 3: walk up with InverseNodeSearch and increment
mLastNodeIndex.  The new node becomes current. -/
def hAdd (st : HStt) (name : String) (rawLevel : Nat) : Option (HStt × HBranch) :=
  let ih : Int := (((rawLevel + 1) % 65536 : Nat) : Int)
  let cn := hGet st st.cur
  if cn.hpos = ih then
    match cn.parent with
    | none => none
    | some p =>
      let r := hPush st p name ih
      some (⟨r.1.nodes, r.2, st.lastIdx + 1⟩, .sibling)
  else if st.lastIdx ≤ ih then
    let r := hPush st st.cur name ih
    some (⟨r.1.nodes, r.2, ih⟩, .deepen)
  else
    let tgt := invSearch st (st.nodes.size + 1) (some st.cur) ih
    let r := hPush st tgt name ih
    some (⟨r.1.nodes, r.2, st.lastIdx + 1⟩, .backtrack)

/-- Run the builder over an ordered (name, raw level) stream, recording
the branch taken for each node. -/
def hRun (l : List (String × Nat)) : Option (HStt × List HBranch) :=
  l.foldl (fun acc nm =>
    match acc with
    | none => none
    | some (st, bs) =>
      match hAdd st nm.1 nm.2 with
      | none => none
      | some (st2, b) => some (st2, bs ++ [b])) (some (hInit, []))

/-! ## Scaling track decoding (CHUNK_TRACKSCALE, lines 589-640, the
AI_3DS_KEYFRAME_ANIMATION block) -/

/-- One decoded scaling key: frame number and the three float components. -/
structure SKey where
  frame : Nat
  x : F32
  y : F32
  z : F32
deriving DecidableEq

/-- C truthiness of a float: zero is false, every other value including
NaN and infinity is true. -/
def truthyF : F32 → Bool
  | .fin _ n _ => decide (n ≠ 0)
  | _ => true

/-- The per-key loop of the scaling-track handler: drop a key whose
frame duplicates one already in the track, then count the keys (drops
included) whose components are all truthy, as the source condition
v.mValue.x && v.mValue.y && v.mValue.z does. -/
def scaleGo : List SKey → List SKey → Nat → List SKey × Nat
  | [], acc, n => (acc, n)
  | k :: ks, acc, n =>
    let dup := acc.any (fun a => a.frame == k.frame)
    let acc2 := if dup then acc else acc ++ [k]
    let n2 := if truthyF k.x && truthyF k.y && truthyF k.z then n + 1 else n
    scaleGo ks acc2 n2

/-- The CHUNK_TRACKSCALE handler over the decoded key list: run the key
loop from the existing track, then clear the whole track when the
counter equals the number of keys read (lines 635-639). -/
def parseScaleTrack (existing : List SKey) (keys : List SKey) : List SKey :=
  let r := scaleGo keys existing 0
  if keys.length = r.2 then [] else r.1

/-! ## Face-material resolution (CHUNK_FACEMAT, lines 671-722) -/

/-- ASCII lower-casing of one byte.  Modelled from the spec:
ASSIMP_stricmp lives in StringComparison.h, absent from this
translation unit; the spec specifies a case-insensitive comparison. -/
def lowByte (b : Nat) : Nat := if 65 ≤ b ∧ b ≤ 90 then b + 32 else b

/-- Case-insensitive byte-string equality. -/
def stricmpEq (a b : List Nat) : Bool := a.map lowByte == b.map lowByte

/-- The sentinel recorded for faces whose material name resolves to no
decoded material (line 701). -/
def UNRESOLVED_MAT : Nat := 0xcdcdcdcd

/-- The material scan loop of the CHUNK_FACEMAT handler (lines
681-694): walk the decoded materials, stopping at the first
case-insensitive name match. -/
def findMat : List (List Nat) → List Nat → Nat → Nat
  | [], _, _ => UNRESOLVED_MAT
  | m :: ms, nm, i => if stricmpEq nm m then i else findMat ms nm (i + 1)

/-- The material-name lookup of the CHUNK_FACEMAT handler (lines
681-702): the index of the first case-insensitive match, the sentinel
when none matches (the 0xFFFFFFFF no-match marker is replaced by
0xcdcdcdcd at lines 695-702). -/
def facematLookup (mats : List (List Nat)) (name : List Nat) : Nat :=
  findMat mats name 0

/-- 2 ^ 64 (written out), the modulus of size_t arithmetic. -/
def U64 : Nat := 18446744073709551616

/-- One iteration of the face-index assignment loop (lines 707-722): an
in-range face index receives the resolved index; an out-of-range index
is logged and the write is aimed at size() - 1 computed in size_t
arithmetic, which underflows for an empty array; such a write lands out
of bounds and is recorded in the second component instead of mutating
the array. -/
def fmStep (idx : Nat) (acc : List Nat × List Nat) (i : Nat) : List Nat × List Nat :=
  if i < acc.1.length then (acc.1.set i idx, acc.2)
  else if (acc.1.length + (U64 - 1)) % U64 < acc.1.length then
    (acc.1.set ((acc.1.length + (U64 - 1)) % U64) idx, acc.2)
  else (acc.1, acc.2 ++ [(acc.1.length + (U64 - 1)) % U64])

/-- The whole assignment loop over the listed face indices, starting
from the face-material array fm; returns the final array and the list
of out-of-bounds write targets. -/
def facematApply (fm : List Nat) (idx : Nat) (listed : List Nat) : List Nat × List Nat :=
  listed.foldl (fmStep idx) (fm, [])

/-! ## Concrete inputs used by the statements below -/

/-- The level stream of the hierarchy test: raw levels as read from the
file, before the uint16 increment the handler applies. -/
def hierDemo : List (String × Nat) := [("A", 0), ("B", 1), ("C", 1), ("D", 0)]

/-- The builder state and branch trace after running the demo stream. -/
def hFinal : HStt × List HBranch := (hRun hierDemo).getD (hInit, [])

/-- A 24-byte file: a main chunk of declared size 12 whose single child
declares size 18.  Every header read is in bounds (12 and 24 both at
most 24), yet the parse aborts: the child handler leaves the cursor at
24, the debug-build validation moves the main chunk end there, 12 bytes
of budget remain, and the next header read happens exactly at the
buffer end, which ReadChunk punishes with the hard end-of-file throw. -/
def ex24 : Array Nat :=
  #[0x4D, 0x4D, 12, 0, 0, 0, 0x99, 0x99, 18, 0, 0, 0,
    0, 0, 0, 0, 0, 0, 0, 0, 0, 0, 0, 0]

/-- A 100-byte buffer whose first chunk has tag 1 and declared size 10. -/
def exbuf : Array Nat := #[1, 0, 10, 0, 0, 0] ++ Array.mkArray 94 0

/-- A minimal well-formed 16-byte file: a main chunk of declared size 16
holding one editor-level child of declared size 10 with an
unrecognized tag; decoding it succeeds. -/
def okBuf16 : Array Nat :=
  #[0x4D, 0x4D, 16, 0, 0, 0, 0, 0, 10, 0, 0, 0, 0, 0, 0, 0]

/-- A 16-byte all-zero buffer (any position from 11 to 15 leaves fewer
bytes than one header). -/
def c3buf : Array Nat := Array.mkArray 16 0

/-- A byte-RGB color chunk: tag 0x0011, declared size 9, payload bytes
200, 100, 50. -/
def bufRGBB : Array Nat := #[0x11, 0, 9, 0, 0, 0, 200, 100, 50]

/-- The gamma variant of the same color chunk: tag 0x0012. -/
def bufLinRGBB : Array Nat := #[0x12, 0, 9, 0, 0, 0, 200, 100, 50]

/-- A background-image chunk of declared size 6 (empty payload) followed
by the bytes 65, 66, 0 that belong to whatever comes after the chunk:
tag 0x1100, so its declared end is position 6. -/
def ex5 : Array Nat := #[0x00, 0x11, 6, 0, 0, 0, 65, 66, 0]

/-- Two decoded material names, "ab" and "c", as byte strings. -/
def matsW : List (List Nat) := [[97, 98], [99]]

/-- A face-material chunk name, "x", matching no decoded material. -/
def nameW : List Nat := [120]

/-! # Theorems -/

/-! ## Helper lemmas about ReadChunk and the dispatcher -/

/-- A header read that succeeds proves the whole declared chunk lies
within the buffer and leaves the cursor just past the 6-byte header. -/
theorem readChunk_ok_bounds (buf : Array Nat) (c f s c1 : Nat)
    (h : readChunk buf c = .ok f s c1) :
    c + headerSize ≤ buf.size ∧ c + s ≤ buf.size ∧ c1 = c + headerSize := by
  have h6 : headerSize = 6 := rfl
  unfold readChunk at h
  by_cases h1 : buf.size ≤ c
  · rw [if_pos h1] at h
    exact absurd h (by simp)
  rw [if_neg h1] at h
  by_cases h2 : buf.size - c < headerSize
  · rw [if_pos h2] at h
    exact absurd h (by simp)
  rw [if_neg h2] at h
  by_cases h3 : buf.size < readU32 buf (c + 2) + c
  · rw [if_pos h3] at h
    exact absurd h (by simp)
  rw [if_neg h3] at h
  injection h with hf hs hc
  exact ⟨by omega, by omega, hc.symm⟩

/-- With the cursor strictly inside the buffer but fewer than six bytes
remaining, ReadChunk returns the soft null result. -/
theorem readChunk_noChunk_of_short (buf : Array Nat) (c : Nat)
    (h1 : c < buf.size) (h2 : buf.size - c < headerSize) :
    readChunk buf c = .noChunk := by
  unfold readChunk
  rw [if_neg (by omega), if_pos h2]

/-- With the cursor at or past the buffer end, ReadChunk throws the hard
end-of-file error. -/
theorem readChunk_eof_of_at_end (buf : Array Nat) (c : Nat) (h1 : buf.size ≤ c) :
    readChunk buf c = .eof := by
  unfold readChunk
  rw [if_pos h1]

/-- ReadChunk throws the hard end-of-file error exactly at the claimed
condition: a header read at or past the buffer end. -/
theorem readChunk_eof_iff (buf : Array Nat) (c : Nat) :
    readChunk buf c = .eof ↔ eofCond buf c := by
  unfold readChunk eofCond
  split_ifs with h1 h2 h3
  · simp [h1]
  · simp [h1]
  · simp [h1]
  · simp [h1]

/-- ReadChunk throws the hard chunk-footer error exactly at the claimed
condition: a readable header whose declared size reaches past the
buffer end. -/
theorem readChunk_overrun_iff (buf : Array Nat) (c : Nat) :
    readChunk buf c = .overrun ↔ overrunCond buf c := by
  unfold readChunk overrunCond
  split_ifs with h1 h2 h3
  · exact ⟨fun h => by simp at h, fun h => by exfalso; omega⟩
  · exact ⟨fun h => by simp at h, fun h => by exfalso; omega⟩
  · exact ⟨fun _ => ⟨by omega, by omega, h3⟩, fun _ => rfl⟩
  · exact ⟨fun h => by simp at h, fun h => by exfalso; omega⟩

/-- ReadChunk returns the soft null result exactly at the claimed
condition: at least one but fewer than header-size bytes remain. -/
theorem readChunk_noChunk_iff (buf : Array Nat) (c : Nat) :
    readChunk buf c = .noChunk ↔ shortCond buf c := by
  unfold readChunk shortCond
  split_ifs with h1 h2 h3
  · exact ⟨fun h => by simp at h, fun h => by exfalso; omega⟩
  · exact ⟨fun _ => ⟨by omega, h2⟩, fun _ => rfl⟩
  · exact ⟨fun h => by simp at h, fun h => by exfalso; omega⟩
  · exact ⟨fun h => by simp at h, fun h => by exfalso; omega⟩

/-- What one dispatcher iteration does after a successful header read:
cursor to the maximum of declared child end and handler cursor, budget
down by the declared size, warning exactly on overshoot. -/
theorem dispatchStep_ok_eq (buf : Array Nat) (h : Nat → Nat → Nat → Nat)
    (c : Nat) (rem : Int) (f s c1 : Nat) (hr : readChunk buf c = .ok f s c1) :
    dispatchStep buf h c rem
      = .next (max (c + s) (h f s c1)) (rem - (s : Int))
          (decide (c + s < h f s c1)) (decide (rem - (s : Int) ≤ 0)) := by
  unfold dispatchStep
  rw [hr]

/-- Termination of a dispatcher loop: if the handler never moves the
cursor backwards, every continuing iteration advances the cursor by at
least the header size, so fuel proportional to the buffer size is never
exhausted — the loop always ends in a result of its own. -/
theorem dispatchLoop_no_fuel (buf : Array Nat) (h : Nat → Nat → Nat → Nat)
    (hm : ∀ f s p, p ≤ h f s p) :
    ∀ (fuel c : Nat) (rem : Int) (w : Bool), buf.size ≤ c + 6 * fuel →
      dispatchLoop buf h (fuel + 1) c rem w ≠ .outOfFuel := by
  intro fuel
  induction fuel with
  | zero =>
    intro c rem w hb
    have he : readChunk buf c = .eof := readChunk_eof_of_at_end buf c (by omega)
    simp [dispatchLoop, dispatchStep, he]
  | succ n ih =>
    intro c rem w hb
    cases hr : readChunk buf c with
    | eof => simp [dispatchLoop, dispatchStep, hr]
    | noChunk => simp [dispatchLoop, dispatchStep, hr]
    | overrun => simp [dispatchLoop, dispatchStep, hr]
    | ok f s c1 =>
      obtain ⟨hin, hsz, hc1⟩ := readChunk_ok_bounds buf c f s c1 hr
      have h6 : headerSize = 6 := rfl
      by_cases hrem : rem - (s : Int) ≤ 0
      · simp [dispatchLoop, dispatchStep, hr, hrem]
      · have hstep := dispatchStep_ok_eq buf h c rem f s c1 hr
        have hm1 : c1 ≤ h f s c1 := hm f s c1
        have hcs : c + 6 ≤ h f s c1 := by omega
        have hcur : c + 6 ≤ max (c + s) (h f s c1) :=
          le_trans hcs (Nat.le_max_right _ _)
        simp only [dispatchLoop, hstep, decide_eq_false hrem]
        exact ih (max (c + s) (h f s c1)) (rem - (s : Int))
          (w || decide (c + s < h f s c1)) (by omega)

/-! ## Helper lemmas about decode -/

/-- Parse errors never inject to the too-small import error. -/
theorem liftPE_ne_tooSmall (e : PErr) : liftPE e ≠ DErr.tooSmall := by
  cases e <;> simp [liftPE]

/-- The import fails with the too-small error exactly on buffers shorter
than 16 bytes. -/
theorem decode_tooSmall_iff (pw : F32 → F32 → F32) (fuel : Nat) (buf : Array Nat) :
    decode pw fuel buf = .error .tooSmall ↔ buf.size < 16 := by
  unfold decode
  by_cases hs : buf.size < 16
  · simp [hs]
  · rw [if_neg hs]
    constructor
    · intro h
      exfalso
      cases hp : parseP pw fuel .main buf 0 0 ((buf.size : Nat) : Int) with
      | error e =>
        rw [hp] at h
        exact liftPE_ne_tooSmall e (by injection h)
      | ok r => rw [hp] at h; exact Except.noConfusion h
    · intro h; exact absurd h hs


/-- A successful import needs at least 16 bytes of input. -/
theorem decode_ok_size (pw : F32 → F32 → F32) (fuel : Nat) (buf : Array Nat) :
    decode pw fuel buf = .ok () → 16 ≤ buf.size := by
  intro h
  rcases Nat.lt_or_ge buf.size 16 with hs | hs
  · rw [decode, if_pos hs] at h
    exact Except.noConfusion h
  · exact hs

/-! ## Soundness of the reported error positions

Every error a parse function returns carries the cursor position of
the failing header read, and that position really satisfies the
error's operational condition.  Proved by induction on fuel across
the whole dispatcher tree. -/

/-- A normal result is trivially sound. -/
theorem errSound_ok {α : Type} (buf : Array Nat) (a : α) :
    errSound buf (Except.ok a) :=
  ⟨fun _ h => Except.noConfusion h, fun _ h => Except.noConfusion h,
    fun _ h => Except.noConfusion h⟩

/-- Fuel exhaustion is sound: it reports no position. -/
theorem errSound_outOfFuel {α : Type} (buf : Array Nat) :
    errSound buf (Except.error PErr.outOfFuel : Except PErr α) := by
  refine ⟨?_, ?_, ?_⟩ <;> intro c2 h <;>
    · injection h with h2
      exact PErr.noConfusion h2

/-- An end-of-buffer header error is sound where eofCond holds. -/
theorem errSound_eofErr {α : Type} (buf : Array Nat) (c : Nat)
    (hc : eofCond buf c) :
    errSound buf (Except.error (PErr.eofHeader c) : Except PErr α) := by
  refine ⟨?_, ?_, ?_⟩ <;> intro c2 h
  · injection h with h2
    injection h2 with h3
    exact h3 ▸ hc
  · injection h with h2
    exact PErr.noConfusion h2
  · injection h with h2
    exact PErr.noConfusion h2

/-- A chunk-footer overrun error is sound where overrunCond holds. -/
theorem errSound_overrunErr {α : Type} (buf : Array Nat) (c : Nat)
    (hc : overrunCond buf c) :
    errSound buf (Except.error (PErr.overrun c) : Except PErr α) := by
  refine ⟨?_, ?_, ?_⟩ <;> intro c2 h
  · injection h with h2
    exact PErr.noConfusion h2
  · injection h with h2
    injection h2 with h3
    exact h3 ▸ hc
  · injection h with h2
    exact PErr.noConfusion h2

/-- A null-header dereference error is sound where shortCond holds. -/
theorem errSound_shortErr {α : Type} (buf : Array Nat) (c : Nat)
    (hc : shortCond buf c) :
    errSound buf (Except.error (PErr.nullDeref c) : Except PErr α) := by
  refine ⟨?_, ?_, ?_⟩ <;> intro c2 h
  · injection h with h2
    exact PErr.noConfusion h2
  · injection h with h2
    exact PErr.noConfusion h2
  · injection h with h2
    injection h2 with h3
    exact h3 ▸ hc

/-- Soundness of an error result does not depend on the value type. -/
theorem errSound_error {α β : Type} (buf : Array Nat) (e : PErr)
    (H : errSound buf (Except.error e : Except PErr α)) :
    errSound buf (Except.error e : Except PErr β) := by
  refine ⟨?_, ?_, ?_⟩ <;> intro c2 h <;> injection h with h2
  · exact H.1 c2 (by rw [h2])
  · exact H.2.1 c2 (by rw [h2])
  · exact H.2.2 c2 (by rw [h2])

/-- Propagating a sound sub-parse result through liftRes is sound. -/
theorem liftRes_errSound {α : Type} (buf : Array Nat) (fc : Nat)
    (x : Except PErr (α × Nat)) (H : errSound buf x) :
    errSound buf (liftRes fc x) := by
  cases x with
  | error e => dsimp only [liftRes]; exact errSound_error buf e H
  | ok r => dsimp only [liftRes]; exact errSound_ok buf _

/-- The shared loop tail preserves soundness: it propagates the handler
error unchanged or continues through a sound continuation. -/
theorem stepEnd_errSound (buf : Array Nat) (c size : Nat) (rem : Int)
    (hres : Except PErr (Nat × Nat))
    (k : Nat → Nat → Int → Except PErr (Nat × Nat))
    (H1 : errSound buf hres) (H2 : ∀ a b d, errSound buf (k a b d)) :
    errSound buf (stepEnd c size rem hres k) := by
  cases hres with
  | error e => dsimp only [stepEnd]; exact H1
  | ok r =>
    dsimp only [stepEnd]
    by_cases hle : rem - (size : Int) ≤ 0
    · rw [if_pos hle]
      exact errSound_ok buf _
    · rw [if_neg hle]
      exact H2 r.1 (max (c + size) r.2) (rem - (size : Int))

/-- ParsePercentageChunk only fails at a position where the failing
ReadChunk condition holds. -/
theorem parsePercentageChunk_errSound (buf : Array Nat) (c : Nat) :
    errSound buf (parsePercentageChunk buf c) := by
  unfold parsePercentageChunk
  cases hr : readChunk buf c with
  | eof => exact errSound_eofErr buf c ((readChunk_eof_iff buf c).mp hr)
  | overrun => exact errSound_overrunErr buf c ((readChunk_overrun_iff buf c).mp hr)
  | noChunk => exact errSound_ok buf _
  | ok flag size c1 =>
    dsimp only
    split_ifs <;> exact errSound_ok buf _

/-- ParseColorChunk only fails at a position where the failing ReadChunk
condition holds, through any number of skipped sibling chunks. -/
theorem parseColorChunk_errSound (pw : F32 → F32 → F32) (ap : Bool) :
    ∀ (fuel : Nat) (buf : Array Nat) (c : Nat),
      errSound buf (parseColorChunk pw ap fuel buf c) := by
  intro fuel
  induction fuel with
  | zero => intro buf c; exact errSound_outOfFuel buf
  | succ n ih =>
    intro buf c
    simp only [parseColorChunk]
    cases hr : readChunk buf c with
    | eof => exact errSound_eofErr buf c ((readChunk_eof_iff buf c).mp hr)
    | overrun => exact errSound_overrunErr buf c ((readChunk_overrun_iff buf c).mp hr)
    | noChunk => exact errSound_ok buf _
    | ok flag size c1 =>
      dsimp only
      by_cases h1 : flag = CHUNK_LINRGBF ∨ flag = CHUNK_RGBF
      · rw [if_pos h1]
        by_cases h2 : subHdr32 size < 12
        · rw [if_pos h2]; exact errSound_ok buf _
        · rw [if_neg h2]; exact errSound_ok buf _
      · rw [if_neg h1]
        by_cases h2 : flag = CHUNK_LINRGBB ∨ flag = CHUNK_RGBB
        · rw [if_pos h2]
          by_cases h3 : subHdr32 size < 3
          · rw [if_pos h3]; exact errSound_ok buf _
          · rw [if_neg h3]; exact errSound_ok buf _
        · rw [if_neg h2]
          by_cases h3 : flag = CHUNK_PERCENTF
          · rw [if_pos h3]
            by_cases h4 : (ap && decide (4 ≤ subHdr32 size)) = true
            · rw [if_pos h4]; exact errSound_ok buf _
            · rw [if_neg h4]; exact errSound_ok buf _
          · rw [if_neg h3]
            by_cases h4 : flag = CHUNK_PERCENTW
            · rw [if_pos h4]
              by_cases h5 : (ap && decide (1 ≤ subHdr32 size)) = true
              · rw [if_pos h5]; exact errSound_ok buf _
              · rw [if_neg h5]; exact errSound_ok buf _
            · rw [if_neg h4]
              exact ih buf (c1 + subHdr32 size)

/-- Every tag handler yields a sound result, given sound nested loops
and color sub-parses. -/
theorem parseHandle_errSound
    (rec : PMode → Array Nat → Nat → Nat → Int → Except PErr (Nat × Nat))
    (colf : Bool → Array Nat → Nat → Except PErr (ColorF × Nat))
    (m : PMode) (buf : Array Nat) (fc flag size c c1 : Nat)
    (Hrec : ∀ m2 b2 fc2 c2 r2, errSound b2 (rec m2 b2 fc2 c2 r2))
    (Hcol : ∀ ap b2 c2, errSound b2 (colf ap b2 c2)) :
    errSound buf (parseHandle rec colf m buf fc flag size c c1) := by
  cases m <;>
    · dsimp only [parseHandle]
      first
        | split_ifs <;>
            first
              | exact errSound_ok buf _
              | apply Hrec
              | exact liftRes_errSound buf _ _ (Hcol _ _ _)
              | exact liftRes_errSound buf _ _ (parsePercentageChunk_errSound _ _)
        | exact errSound_ok buf _

/-- The whole recursive-descent parse only fails at a position where
the failing ReadChunk condition holds. -/
theorem parseP_errSound (pw : F32 → F32 → F32) :
    ∀ (fuel : Nat) (m : PMode) (buf : Array Nat) (fc c : Nat) (rem : Int),
      errSound buf (parseP pw fuel m buf fc c rem) := by
  intro fuel
  induction fuel with
  | zero => intro m buf fc c rem; exact errSound_outOfFuel buf
  | succ n ih =>
    intro m buf fc c rem
    simp only [parseP]
    cases hr : readChunk buf c with
    | eof => exact errSound_eofErr buf c ((readChunk_eof_iff buf c).mp hr)
    | overrun => exact errSound_overrunErr buf c ((readChunk_overrun_iff buf c).mp hr)
    | noChunk => exact errSound_shortErr buf c ((readChunk_noChunk_iff buf c).mp hr)
    | ok flag size c1 =>
      dsimp only
      refine stepEnd_errSound buf c size rem _ _ ?_ (fun a b d => ih m buf a b d)
      exact parseHandle_errSound _ _ m buf fc flag size c c1
        (fun m2 b2 fc2 c2 r2 => ih m2 b2 fc2 c2 r2)
        (fun ap b2 c2 => parseColorChunk_errSound pw ap n b2 c2)

/-- Lift the parse-level soundness to decode: any error position the
importer reports concretely satisfies its condition, witnessed by a
failing ReadChunk at that very position. -/
theorem decode_err_positions (pw : F32 → F32 → F32) (fuel : Nat) (buf : Array Nat) :
    (∀ c2, decode pw fuel buf = .error (.eofHeader c2) →
      eofCond buf c2 ∧ readChunk buf c2 = .eof)
    ∧ (∀ c2, decode pw fuel buf = .error (.overrun c2) →
      overrunCond buf c2 ∧ readChunk buf c2 = .overrun)
    ∧ (∀ c2, decode pw fuel buf = .error (.nullDeref c2) →
      shortCond buf c2 ∧ readChunk buf c2 = .noChunk) := by
  have hs := parseP_errSound pw fuel .main buf 0 0 ((buf.size : Nat) : Int)
  unfold decode
  by_cases h16 : buf.size < 16
  · rw [if_pos h16]
    refine ⟨?_, ?_, ?_⟩ <;> intro c2 he <;> simp at he
  · rw [if_neg h16]
    cases hp : parseP pw fuel .main buf 0 0 ((buf.size : Nat) : Int) with
    | ok r =>
      refine ⟨?_, ?_, ?_⟩ <;> intro c2 he <;> simp at he
    | error e =>
      rw [hp] at hs
      cases e with
      | eofHeader c3 =>
        have hc := hs.1 c3 rfl
        refine ⟨?_, ?_, ?_⟩ <;> intro c2 he <;> simp [liftPE] at he
        subst he
        exact ⟨hc, (readChunk_eof_iff buf c3).mpr hc⟩
      | overrun c3 =>
        have hc := hs.2.1 c3 rfl
        refine ⟨?_, ?_, ?_⟩ <;> intro c2 he <;> simp [liftPE] at he
        subst he
        exact ⟨hc, (readChunk_overrun_iff buf c3).mpr hc⟩
      | nullDeref c3 =>
        have hc := hs.2.2 c3 rfl
        refine ⟨?_, ?_, ?_⟩ <;> intro c2 he <;> simp [liftPE] at he
        subst he
        exact ⟨hc, (readChunk_noChunk_iff buf c3).mpr hc⟩
      | outOfFuel =>
        refine ⟨?_, ?_, ?_⟩ <;> intro c2 he <;> simp [liftPE] at he

/-! ## Helper lemmas about the face-material assignment loop -/

/-- One assignment iteration never changes the array length. -/
theorem fmStep_length (idx : Nat) (a : List Nat × List Nat) (i : Nat) :
    (fmStep idx a i).1.length = a.1.length := by
  unfold fmStep
  split_ifs <;> simp [List.length_set]

/-- The whole assignment loop never changes the array length. -/
theorem fm_fold_length (idx : Nat) :
    ∀ (l : List Nat) (a : List Nat × List Nat),
      (l.foldl (fmStep idx) a).1.length = a.1.length := by
  intro l
  induction l with
  | nil => intro a; rfl
  | cons x xs ih =>
    intro a
    rw [List.foldl_cons, ih, fmStep_length]

/-- Every write of the loop writes the resolved index, so a position
already holding it keeps it. -/
theorem fm_fold_keep (idx : Nat) :
    ∀ (l : List Nat) (a : List Nat × List Nat) (j : Nat),
      a.1.get? j = some idx → (l.foldl (fmStep idx) a).1.get? j = some idx := by
  intro l
  induction l with
  | nil => intro a j hj; exact hj
  | cons x xs ih =>
    intro a j hj
    rw [List.foldl_cons]
    refine ih (fmStep idx a x) j ?_
    unfold fmStep
    split_ifs with h1 h2
    · by_cases hx : x = j
      · subst hx
        exact List.get?_set_eq_of_lt idx (by omega)
      · rw [List.get?_set_ne idx _ hx]; exact hj
    · by_cases hx : (a.1.length + (U64 - 1)) % U64 = j
      · rw [hx] at h2 ⊢
        exact List.get?_set_eq_of_lt idx h2
      · rw [List.get?_set_ne idx _ hx]; exact hj
    · exact hj

/-- A listed in-range face index ends up holding the resolved index. -/
theorem fm_fold_listed (idx : Nat) :
    ∀ (l : List Nat) (a : List Nat × List Nat) (i : Nat),
      i ∈ l → i < a.1.length →
      (l.foldl (fmStep idx) a).1.get? i = some idx := by
  intro l
  induction l with
  | nil => intro a i hmem; exact absurd hmem (List.not_mem_nil i)
  | cons x xs ih =>
    intro a i hmem hlen
    rw [List.foldl_cons]
    rcases List.mem_cons.mp hmem with hx | hxs
    · subst hx
      refine fm_fold_keep idx xs (fmStep idx a i) i ?_
      unfold fmStep
      rw [if_pos hlen]
      exact List.get?_set_eq_of_lt idx hlen
    · exact ih (fmStep idx a x) i hxs (by rw [fmStep_length]; exact hlen)

/-- With a non-empty array (of size_t-representable length), the loop
records no out-of-bounds write: the out-of-range fallback lands on the
last slot. -/
theorem fm_fold_nonempty (idx : Nat) :
    ∀ (l : List Nat) (a : List Nat × List Nat),
      a.1.length ≠ 0 → a.1.length < U64 →
      (l.foldl (fmStep idx) a).2 = a.2 := by
  intro l
  induction l with
  | nil => intro a _ _; rfl
  | cons x xs ih =>
    intro a hne hlt
    rw [List.foldl_cons]
    have hstep : (fmStep idx a x).1.length = a.1.length := fmStep_length idx a x
    have h2 : (fmStep idx a x).2 = a.2 := by
      unfold fmStep
      split_ifs with hc1 hc2
      · rfl
      · rfl
      · exfalso
        unfold U64 at hlt hc2
        omega
    rw [ih (fmStep idx a x) (by omega) (by omega), h2]

/-- With an empty array, every listed index takes the out-of-range path
and its write target is the size_t underflow value 2^64 - 1, recorded
as out of bounds; the array itself never changes. -/
theorem fm_fold_empty (idx : Nat) :
    ∀ (l : List Nat) (a : List Nat × List Nat),
      a.1 = [] →
      (l.foldl (fmStep idx) a).1 = []
      ∧ (l.foldl (fmStep idx) a).2 = a.2 ++ List.replicate l.length (U64 - 1) := by
  intro l
  induction l with
  | nil => intro a ha; simpa using ha
  | cons x xs ih =>
    intro a ha
    rw [List.foldl_cons]
    have hstep : fmStep idx a x = (a.1, a.2 ++ [U64 - 1]) := by
      unfold fmStep
      rw [ha]
      norm_num [U64]
    rw [hstep]
    obtain ⟨h1, h2⟩ := ih (a.1, a.2 ++ [U64 - 1]) ha
    refine ⟨h1, ?_⟩
    rw [h2]
    simp [List.replicate_succ]

/-- The material scan returns the sentinel when no name matches,
whatever start offset the scan carries. -/
theorem findMat_none (nm : List Nat) :
    ∀ (mats : List (List Nat)) (i : Nat),
      (∀ m ∈ mats, stricmpEq nm m = false) →
      findMat mats nm i = UNRESOLVED_MAT := by
  intro mats
  induction mats with
  | nil => intro i _; rfl
  | cons m ms ih =>
    intro i hall
    unfold findMat
    rw [if_neg (by simp [hall m (List.mem_cons_self m ms)])]
    exact ih (i + 1) (fun x hx => hall x (List.mem_cons_of_mem m hx))

/-! ## C1 -/

/-- C1 (amended): when a child handler leaves the cursor past the
child's computed end, the debug-build dispatcher emits the corruption
warning but moves the recorded child end forward to the cursor, so the
cursor stays at the overshoot position instead of being clamped back —
and no fatal error is raised.  Every chunk accepted by the header read
lies within the buffer, and, provided handlers never move the cursor
backwards, the loop always terminates — by budget exhaustion or a
failing header read — within a number of iterations proportional to
the buffer size. -/
theorem dispatcher_overshoot_amended :
    (∀ (buf : Array Nat) (c f s c1 : Nat), readChunk buf c = .ok f s c1 →
      c + headerSize ≤ buf.size ∧ c + s ≤ buf.size ∧ c1 = c + headerSize)
    ∧ (∀ (buf : Array Nat) (h : Nat → Nat → Nat → Nat) (c : Nat) (rem : Int)
        (f s c1 : Nat), readChunk buf c = .ok f s c1 → c + s < h f s c1 →
        dispatchStep buf h c rem
          = .next (h f s c1) (rem - (s : Int)) true (decide (rem - (s : Int) ≤ 0)))
    ∧ (∀ (buf : Array Nat) (h : Nat → Nat → Nat → Nat),
        (∀ f s p, p ≤ h f s p) →
        ∀ (fuel c : Nat) (rem : Int) (w : Bool), buf.size ≤ c + 6 * fuel →
          dispatchLoop buf h (fuel + 1) c rem w ≠ .outOfFuel) := by
  refine ⟨fun buf c f s c1 h => readChunk_ok_bounds buf c f s c1 h, ?_, ?_⟩
  · intro buf h c rem f s c1 hr hov
    rw [dispatchStep_ok_eq buf h c rem f s c1 hr, Nat.max_eq_right (Nat.le_of_lt hov),
      decide_eq_true hov]
  · exact fun buf h hm => dispatchLoop_no_fuel buf h hm

/-- C1 counterexample: a chunk of declared size 10 at position 0, whose
handler leaves the cursor at 50.  The claim would clamp the cursor back
to the child end 10; the dispatcher instead keeps 50 as the new cursor
(and as the moved child end) while emitting the warning. -/
theorem dispatcher_overshoot_counterexample :
    dispatchStep exbuf (fun _ _ _ => 50) 0 100 = .next 50 90 true false
    ∧ (50 : Nat) ≠ 10 := by decide

/-- C1 witness: the amended statement applied to the concrete buffer
exbuf with the handler that always advances the cursor by 44 bytes. -/
theorem dispatcher_overshoot_amended_witness :
    (0 + 10 ≤ exbuf.size)
    ∧ dispatchStep exbuf (fun _ _ p => p + 44) 0 7 = .next 50 (-3) true true
    ∧ dispatchLoop exbuf (fun _ _ p => p + 44) 18 0 100 false ≠ .outOfFuel := by
  obtain ⟨h1, h2, h3⟩ := dispatcher_overshoot_amended
  refine ⟨(h1 exbuf 0 1 10 6 (by decide)).2.1, ?_, ?_⟩
  · exact h2 exbuf (fun _ _ p => p + 44) 0 7 1 10 6 (by decide) (by decide)
  · exact h3 exbuf (fun _ _ p => p + 44) (fun f s p => Nat.le_add_right p 44)
      17 0 100 false (by decide)

/-! ## C2 -/

/-- C2: on the stream (A,0), (B,1), (C,1), (D,0) — raw levels, each
incremented on read — the builder produces A under the root with
ordered children B, C, and D as a sibling of A directly under the
root, taking the deepen branch for A and B, the same-level-sibling
branch for C and the backtrack branch for D. -/
theorem hierarchy_reconstruction_example :
    (hRun hierDemo).isSome = true
    ∧ (hGet hFinal.1 0).children = [1, 4]
    ∧ (hGet hFinal.1 1).children = [2, 3]
    ∧ (hGet hFinal.1 1).name = "A"
    ∧ (hGet hFinal.1 2).name = "B"
    ∧ (hGet hFinal.1 3).name = "C"
    ∧ (hGet hFinal.1 4).name = "D"
    ∧ (hGet hFinal.1 4).parent = some 0
    ∧ (hGet hFinal.1 2).parent = some 1
    ∧ (hGet hFinal.1 3).parent = some 1
    ∧ hFinal.2 = [.deepen, .deepen, .sibling, .backtrack] := by decide

/-! ## C3 -/

/-- C3 (amended): with at least one but fewer than six bytes remaining,
the header read returns the soft null NoChunk result, the percentage
lookup turns it into the NaN sentinel and the color lookup into the
error color, both without failing hard and without moving the cursor;
the zero-bytes-remaining case is a hard error instead (see the
counterexample). -/
theorem readChunk_short_remainder_amended :
    ∀ (buf : Array Nat) (c : Nat), c < buf.size → buf.size - c < headerSize →
      readChunk buf c = .noChunk
      ∧ parsePercentageChunk buf c = .ok (.nan, c)
      ∧ ∀ (pw : F32 → F32 → F32) (ap : Bool) (fuel : Nat),
          parseColorChunk pw ap (fuel + 1) buf c = .ok (clrError, c) := by
  intro buf c h1 h2
  have hn := readChunk_noChunk_of_short buf c h1 h2
  refine ⟨hn, ?_, ?_⟩
  · unfold parsePercentageChunk
    rw [hn]
  · intro pw ap fuel
    unfold parseColorChunk
    rw [hn]

/-- C3 counterexample: at exactly zero bytes remaining the header read
does not return NoChunk — it throws the hard end-of-file error (line
223 fires before the remaining-bytes check). -/
theorem readChunk_zero_remainder_counterexample :
    readChunk c3buf 16 = .eof ∧ ReadRes.eof ≠ ReadRes.noChunk := by decide

/-- C3 witness: the amended statement at position 12 of a 16-byte
buffer, with four bytes remaining. -/
theorem readChunk_short_remainder_witness :
    readChunk c3buf 12 = .noChunk
    ∧ parsePercentageChunk c3buf 12 = .ok (.nan, 12)
    ∧ parseColorChunk (fun x _ => x) true 4 c3buf 12 = .ok (clrError, 12) := by
  obtain ⟨a, b, c⟩ := readChunk_short_remainder_amended c3buf 12 (by decide) (by decide)
  exact ⟨a, b, c (fun x _ => x) true 3⟩

/-! ## C4 -/

/-- C4 (amended): the import aborts and produces no Scene only on one
of: the dedicated too-small error, raised exactly when the buffer is
shorter than 16 bytes; a header read at or past the buffer end; a
declared chunk size reaching past the buffer end; a null dereference
when one to five bytes remain at a dispatcher (a crash, not a
descriptive error); or exhausted fuel (model artifact).  Each of the
three read-failure aborts carries a cursor position at which its
condition concretely holds, witnessed by a failing ReadChunk at that
very position; a returned scene implies at least 16 bytes of input;
and a concrete well-formed 16-byte file decodes to a scene, for every
powf.  No scene is returned on any abort — decode yields either an
error or a scene, never both, as the C++ exception propagates out of
InternReadFile before the output scene is populated. -/
theorem decode_hard_failure_amended :
    ∀ (pw : F32 → F32 → F32) (fuel : Nat) (buf : Array Nat),
      (decode pw fuel buf = .error .tooSmall ↔ buf.size < 16)
      ∧ (decode pw fuel buf = .ok () → 16 ≤ buf.size)
      ∧ (∀ c2, decode pw fuel buf = .error (.eofHeader c2) →
          eofCond buf c2 ∧ readChunk buf c2 = .eof)
      ∧ (∀ c2, decode pw fuel buf = .error (.overrun c2) →
          overrunCond buf c2 ∧ readChunk buf c2 = .overrun)
      ∧ (∀ c2, decode pw fuel buf = .error (.nullDeref c2) →
          shortCond buf c2 ∧ readChunk buf c2 = .noChunk)
      ∧ decode pw 3 okBuf16 = .ok () := by
  intro pw fuel buf
  obtain ⟨h3, h4, h5⟩ := decode_err_positions pw fuel buf
  exact ⟨decode_tooSmall_iff pw fuel buf, decode_ok_size pw fuel buf, h3, h4, h5, rfl⟩

/-- C4 counterexample: the 24-byte file ex24 is openable, well over 16
bytes, and every header read the parse performs is accepted — both
declared chunk ends, 12 and 24, are within the 24-byte buffer — yet
the import aborts with a hard error, one raised by a header read
expected exactly at the buffer end (position 24).  None of the three
conditions of the claim holds, refuting the claimed exactness. -/
theorem decode_hard_failure_counterexample :
    decode (fun x _ => x) 50 ex24 = .error (.eofHeader 24)
    ∧ ex24.size = 24
    ∧ readChunk ex24 0 = .ok CHUNK_MAIN 12 6
    ∧ readChunk ex24 6 = .ok 0x9999 18 12 := by decide

/-- C4 witness: the amended characterization applied to a 10-byte
buffer, which the too-small check rejects. -/
theorem decode_hard_failure_witness :
    decode (fun x _ => x) 3 (Array.mkArray 10 0) = .error DErr.tooSmall :=
  (decode_hard_failure_amended (fun x _ => x) 3 (Array.mkArray 10 0)).1.mpr (by decide)

/-! ## C5 -/

/-- C5 (code bug): the background-image name is read with an unbounded
C-string constructor (line 350), so for a CHUNK_BIT_MAP chunk of
declared size 6 — whose declared end is position 6 — the read touches
positions 6, 7 and 8, all at or past the declared end, and the decoded
name is the two bytes that belong to the following data instead of the
empty (truncated) string the spec requires.  The bounded name scans
are affected at the margin too: even with an empty payload the scan
dereferences the byte sitting exactly at the chunk end before any
bound check, as the scan of the same chunk shows. -/
theorem string_read_past_chunk_end_bug :
    readChunk ex5 0 = .ok CHUNK_BIT_MAP 6 6
    ∧ bitmapScan ex5 6 = ([65, 66], [6, 7, 8], false)
    ∧ (bitmapScan ex5 6).2.1.all (fun p => 6 ≤ p) = true
    ∧ (bitmapScan ex5 6).1 ≠ []
    ∧ (scanName ex5 6 6).2.2 = [6] := by decide

/-! ## C6 -/

/-- C6 (code bug): the source counts keys satisfying
v.mValue.x && v.mValue.y && v.mValue.z — keys with all components
NONzero — under a warning that claims to have found a zero axis, and
clears the track when ALL keys pass that test.  Consequently a track
whose every key is exactly (0,0,0) is kept in full, the opposite of
the claim, while a track of all-nonzero keys is discarded. -/
theorem scale_track_condition_inverted_bug :
    parseScaleTrack [] [⟨0, f32zero, f32zero, f32zero⟩, ⟨1, f32zero, f32zero, f32zero⟩]
        = [⟨0, f32zero, f32zero, f32zero⟩, ⟨1, f32zero, f32zero, f32zero⟩]
    ∧ parseScaleTrack [] [⟨0, F32.ofInt 1, F32.ofInt 1, F32.ofInt 1⟩] = [] := by decide

/-! ## C7 -/

/-- C7: when no decoded material name matches the face-material chunk's
name case-insensitively, the lookup yields the sentinel 0xcdcdcdcd,
which differs from every legitimate material index (in particular from
0), and every listed in-range face receives it; the handler raises no
error. -/
theorem facemat_unknown_name_sentinel :
    ∀ (mats : List (List Nat)) (nm : List Nat) (fm listed : List Nat),
      (∀ m ∈ mats, stricmpEq nm m = false) →
      mats.length < UNRESOLVED_MAT →
      facematLookup mats nm = UNRESOLVED_MAT
      ∧ (∀ j, j < mats.length → j ≠ UNRESOLVED_MAT)
      ∧ ∀ i, i ∈ listed → i < fm.length →
          (facematApply fm (facematLookup mats nm) listed).1.get? i
            = some UNRESOLVED_MAT := by
  intro mats nm fm listed hall hlen
  have hlook : facematLookup mats nm = UNRESOLVED_MAT := findMat_none nm mats 0 hall
  refine ⟨hlook, fun j hj => by omega, fun i hmem hlt => ?_⟩
  unfold facematApply
  rw [hlook]
  exact fm_fold_listed UNRESOLVED_MAT listed (fm, []) i hmem hlt

/-- C7 witness: the name "x" against the decoded names "ab" and "c",
with faces 1 and 0 of a three-face mesh listed. -/
theorem facemat_unknown_name_sentinel_witness :
    facematLookup matsW nameW = UNRESOLVED_MAT
    ∧ (0 : Nat) ≠ UNRESOLVED_MAT
    ∧ (facematApply [9, 9, 9] (facematLookup matsW nameW) [1, 0]).1.get? 1
        = some UNRESOLVED_MAT := by
  obtain ⟨a, b, c⟩ :=
    facemat_unknown_name_sentinel matsW nameW [9, 9, 9] [1, 0] (by decide) (by decide)
  exact ⟨a, b 0 (by decide), c 1 (by decide) (by decide)⟩

/-! ## C8 -/

/-- C8 (amended): for a successfully decoded percentage v the caller
conversions are transparency = 1 - (v*65535)/100 and
self-illumination = (v*65535)/100, both left to right, shininess =
v*65535, but shininess-strength = v*(65535/100): its compound
assignment multiplies by the constant 65535/100 rounded to binary32
first, which differs bit for bit from the left-to-right reading the
spec gives for it (see the counterexample).  On the NaN failure
sentinel: transparency 1.0, the other three 0.0. -/
theorem percentage_conversions_amended :
    ∀ v : F32,
      (is_qnan v = false →
        convTransparency v = F32.sub fc1 (F32.div (F32.mul v fc65535) fc100)
        ∧ convShininess v = F32.mul v fc65535
        ∧ convShininessStrength v = F32.mul v (F32.div fc65535 fc100)
        ∧ convSelfIlum v = F32.div (F32.mul v fc65535) fc100)
      ∧ (is_qnan v = true →
        convTransparency v = fc1
        ∧ convShininess v = f32zero
        ∧ convShininessStrength v = f32zero
        ∧ convSelfIlum v = f32zero) := by
  intro v
  constructor
  · intro h
    simp [convTransparency, convShininess, convShininessStrength, convSelfIlum, h]
  · intro h
    simp [convTransparency, convShininess, convShininessStrength, convSelfIlum, h]

/-- C8 counterexample: the claim assigns the same formula v*65535/100
to both the shininess-strength and the self-illumination conversion,
but at the decodable percentage value 3.0 the two code paths disagree
in the last bit — 655.35 rounds to binary32 before the multiplication
in one and after the division in the other — so no single reading of
the claimed formula matches both. -/
theorem percentage_conversions_counterexample :
    convShininessStrength (F32.ofInt 3) ≠ convSelfIlum (F32.ofInt 3)
    ∧ convShininessStrength (F32.ofInt 3) = F32.fin false 16105881 (-13)
    ∧ convSelfIlum (F32.ofInt 3) = F32.fin false 16105882 (-13)
    ∧ specStrengthFormula (F32.ofInt 3) = convSelfIlum (F32.ofInt 3) := by decide

/-- C8 witness: the amended statement at the decoded value 3.0 and at
the NaN sentinel. -/
theorem percentage_conversions_witness :
    convTransparency (F32.ofInt 3)
        = F32.sub fc1 (F32.div (F32.mul (F32.ofInt 3) fc65535) fc100)
    ∧ convShininessStrength (F32.ofInt 3)
        = F32.mul (F32.ofInt 3) (F32.div fc65535 fc100)
    ∧ convTransparency F32.nan = fc1
    ∧ convShininess F32.nan = f32zero := by
  obtain ⟨ha, _, hc, _⟩ := (percentage_conversions_amended (F32.ofInt 3)).1 (by decide)
  obtain ⟨hx, hy, _, _⟩ := (percentage_conversions_amended F32.nan).2 (by decide)
  exact ⟨ha, hc, hx, hy⟩

/-! ## C9 -/

/-- C9: a byte-RGB chunk with payload bytes 200, 100, 50 decodes to the
binary32 values of 200/255, 100/255 and 50/255; the gamma variant of
the same bytes applies powf with exponent 1/2.2 (the binary32 constant
1.0f/2.2f) to each channel after the division.  powf is abstract, so
the equations hold for every powf. -/
theorem color_byte_rgb_and_gamma :
    ∀ pw : F32 → F32 → F32,
      parseColorChunk pw false 5 bufRGBB 0
        = .ok (⟨F32.ofFrac 200 255, F32.ofFrac 100 255, F32.ofFrac 50 255⟩, 9)
      ∧ parseColorChunk pw false 5 bufLinRGBB 0
        = .ok (⟨pw (F32.ofFrac 200 255) gammaExp, pw (F32.ofFrac 100 255) gammaExp,
            pw (F32.ofFrac 50 255) gammaExp⟩, 9) :=
  fun _ => ⟨rfl, rfl⟩

/-! ## C10 -/

/-- C10: the out-of-range fallback write is well defined exactly under
the claim's precondition.  With a non-empty face-material array (of
size_t-representable length) the loop performs no out-of-bounds write
and leaves the length unchanged — every out-of-range face index lands
on the last slot.  With an empty array, every listed face index takes
the out-of-range path and its write target is size() - 1 computed in
size_t arithmetic, which underflows to 2^64 - 1, an out-of-bounds
position at or past the array length. -/
theorem facemat_empty_array_underflow :
    ∀ (fm listed : List Nat) (idx : Nat),
      (fm.length ≠ 0 → fm.length < U64 →
        (facematApply fm idx listed).2 = []
        ∧ (facematApply fm idx listed).1.length = fm.length)
      ∧ (fm.length = 0 →
        (facematApply fm idx listed).2 = List.replicate listed.length (U64 - 1)
        ∧ ∀ t, t ∈ (facematApply fm idx listed).2 → fm.length ≤ t ∧ t = U64 - 1) := by
  intro fm listed idx
  constructor
  · intro hne hlt
    exact ⟨fm_fold_nonempty idx listed (fm, []) hne hlt,
      fm_fold_length idx listed (fm, [])⟩
  · intro hz
    have hfm : fm = [] := List.length_eq_zero.mp hz
    obtain ⟨h1, h2⟩ := fm_fold_empty idx listed (fm, []) hfm
    rw [facematApply, h2]
    refine ⟨by simp, fun t ht => ?_⟩
    simp only [List.nil_append] at ht
    have := List.eq_of_mem_replicate ht
    omega

/-- C10 witness: a two-face array with an out-of-range index 5 listed
produces no out-of-bounds write; an empty array with face 0 listed
produces exactly one, targeting 2^64 - 1. -/
theorem facemat_empty_array_underflow_witness :
    (facematApply [7, 7] 3 [5, 0]).2 = []
    ∧ (facematApply [7, 7] 3 [5, 0]).1.length = 2
    ∧ (facematApply [] 3 [0]).2 = List.replicate 1 (U64 - 1) := by
  obtain ⟨a, b⟩ := (facemat_empty_array_underflow [7, 7] [5, 0] 3).1 (by decide) (by decide)
  exact ⟨a, b, ((facemat_empty_array_underflow [] [0] 3).2 (by decide)).1⟩

end ThreeDS
